import Mathlib

/-!
Verification development for the dspace-angular front-end repository.

The development shallowly embeds the algorithmic parts the specification
talks about:

* the community-list tree flattening / pagination algorithm
  (`loadCommunities`, `getNextPageTopCommunities` from the
  `CommunityListService` stub in the `CommunityListComponent` test file);
* the TTL-gated object cache (`getBySelfLink`, `hasBySelfLink`);
* `DataService.getFindAllHref` request-href construction;
* `ResearcherProfileService.findByRelatedItem` and
  `ResearcherProfileService.delete`.

Observables are embedded as the list of values they emit; the NgRx store
state backing the object cache is embedded as a lookup function from self
links to cache entries.
-/

namespace CommunityList

/-- Modelled from the spec: a community or collection as the tree builder
sees it — the `FlatNode` payload type. Only the identifier and the display
name are relevant to the flattening algorithm. -/
structure DSpaceObject where
  id : String
  name : String

/-- Modelled from the spec: "Flattened tree node: a UI view-model record
representing one row of a hierarchical community/collection browser,
including nesting level and pagination state." The type `FlatNode` from
`community-list-service` is not part of the sources; its fields are taken
from how the test file uses them: `id`, `name`, `isExpandable`,
`isExpanded`, `level`, `isShowMoreNode`, `parent`, `currentCommunityPage`
and `currentCollectionPage`. The `parent` field makes the type recursive,
hence the inductive presentation. -/
inductive FlatNode : Type where
  | mk : String → String → Bool → Bool → Nat → Bool → Option FlatNode →
      Nat → Nat → FlatNode

/-- Identifier of the underlying community or collection. -/
def FlatNode.id : FlatNode → String
  | .mk i _ _ _ _ _ _ _ _ => i

/-- Display name of the row. -/
def FlatNode.name : FlatNode → String
  | .mk _ n _ _ _ _ _ _ _ => n

/-- Whether the row can be expanded. -/
def FlatNode.isExpandable : FlatNode → Bool
  | .mk _ _ e _ _ _ _ _ _ => e

/-- Whether the row is currently expanded. -/
def FlatNode.isExpanded : FlatNode → Bool
  | .mk _ _ _ x _ _ _ _ _ => x

/-- Nesting level of the row in the flattened tree. -/
def FlatNode.level : FlatNode → Nat
  | .mk _ _ _ _ l _ _ _ _ => l

/-- Whether the row is a show-more paging affordance rather than a real
community or collection. -/
def FlatNode.isShowMoreNode : FlatNode → Bool
  | .mk _ _ _ _ _ s _ _ _ => s

/-- Parent row of the node, if any. -/
def FlatNode.parent : FlatNode → Option FlatNode
  | .mk _ _ _ _ _ _ p _ _ => p

/-- Current page of subcommunities shown under this node. -/
def FlatNode.currentCommunityPage : FlatNode → Nat
  | .mk _ _ _ _ _ _ _ c _ => c

/-- Current page of collections shown under this node. -/
def FlatNode.currentCollectionPage : FlatNode → Nat
  | .mk _ _ _ _ _ _ _ _ d => d

/-- Modelled from the spec: `toFlatNode(c, isExpandable, level, isExpanded,
parent)` of `community-list-service` (absent from the sources, used by the
test file) builds the flat view-model row for a community or collection,
with both child pages starting at 1. -/
def toFlatNode (c : DSpaceObject) (isExpandable : Bool) (level : Nat)
    (isExpanded : Bool) (parent : Option FlatNode) : FlatNode :=
  FlatNode.mk c.id c.name isExpandable isExpanded level false parent 1 1

/-- Modelled from the spec: `showMoreFlatNode(id, level, parent)` of
`community-list-service` (absent from the sources, used by the test file)
builds a show-more paging row at the given level under the given parent. -/
def showMoreFlatNode (id : String) (level : Nat) (parent : Option FlatNode) :
    FlatNode :=
  FlatNode.mk id "" false false level true parent 1 1

/-- One top community together with the arrays of children the test fixture
`mockTopCommunitiesWithChildrenArrays` supplies for it. -/
structure TopComChildren where
  id : String
  subcommunities : List DSpaceObject
  collections : List DSpaceObject

/-- Pagination state of the `CommunityListService` stub: page sizes and the
current top-level page. -/
structure CommunityListState where
  topPageSize : Nat
  topCurrentPage : Nat
  collectionPageSize : Nat
  subcommunityPageSize : Nat

/-- Children block appended after one top node by `loadCommunities`
(the body of the `topFlatnodes.map` loop in the stub): nothing when the
node is not expanded or has no matching children arrays; otherwise the
page-limited subcommunity rows with an optional show-more row, followed by
the page-limited collection rows with an optional show-more row. -/
def expandedChildren (st : CommunityListState) (topComs : List TopComChildren)
    (expandedNodes : List FlatNode) (topNode : FlatNode) : List FlatNode :=
  match expandedNodes.find? (fun e => e.id == topNode.id) with
  | none => []
  | some expandedParent =>
    match topComs.find? (fun tc => tc.id == topNode.id) with
    | none => []
    | some matching =>
      let subComFlatnodes := matching.subcommunities.map
        (fun subcom => toFlatNode subcom false (topNode.level + 1) false (some topNode))
      let collFlatnodes := matching.collections.map
        (fun coll => toFlatNode coll false (topNode.level + 1) false (some topNode))
      let subPart :=
        if subComFlatnodes.isEmpty then []
        else
          let endSubComIndex := st.subcommunityPageSize * expandedParent.currentCommunityPage
          subComFlatnodes.take endSubComIndex ++
            (if subComFlatnodes.length > endSubComIndex then
              [showMoreFlatNode "community" (topNode.level + 1) (some expandedParent)]
            else [])
      let collPart :=
        if collFlatnodes.isEmpty then []
        else
          let endColIndex := st.collectionPageSize * expandedParent.currentCollectionPage
          collFlatnodes.take endColIndex ++
            (if collFlatnodes.length > endColIndex then
              [showMoreFlatNode "collection" (topNode.level + 1) (some expandedParent)]
            else [])
      subPart ++ collPart

/-- Embedding of `loadCommunities(expandedNodes)` of the
`CommunityListService` stub, generalised over the fixture lists it closes
over (`mockTopFlatnodesUnexpanded` and
`mockTopCommunitiesWithChildrenArrays`). The returned observable is
embedded as the list it emits. -/
def loadCommunities (st : CommunityListState)
    (topFlatnodesUnexpanded : List FlatNode) (topComs : List TopComChildren)
    (expandedNodes : List FlatNode) : List FlatNode :=
  let currentPage := st.topCurrentPage
  let elementsPerPage := st.topPageSize
  let showMoreTopComNode : Bool :=
    !(currentPage * elementsPerPage ≥ topFlatnodesUnexpanded.length)
  let endPageIndex :=
    if currentPage * elementsPerPage ≥ topFlatnodesUnexpanded.length then
      topFlatnodesUnexpanded.length
    else currentPage * elementsPerPage
  if expandedNodes.isEmpty then
    if showMoreTopComNode then
      topFlatnodesUnexpanded.take endPageIndex ++ [showMoreFlatNode "community" 0 none]
    else
      topFlatnodesUnexpanded.take endPageIndex
  else
    let topFlatnodes := topFlatnodesUnexpanded.take endPageIndex
    let flatnodes := topFlatnodes.foldl
      (fun acc topNode => acc ++ topNode :: expandedChildren st topComs expandedNodes topNode)
      []
    if showMoreTopComNode then
      flatnodes ++ [showMoreFlatNode "community" 0 none]
    else
      flatnodes

/-- Embedding of `getNextPageTopCommunities()` of the stub: increment the
top-level current page. -/
def getNextPageTopCommunities (st : CommunityListState) : CommunityListState :=
  { st with topCurrentPage := st.topCurrentPage + 1 }

/-- The three top communities of the test fixture, as unexpanded flat
nodes (`mockTopFlatnodesUnexpanded`). -/
def mockTopFlatnodesUnexpanded : List FlatNode :=
  [ toFlatNode ⟨"com1", "community1"⟩ true 0 false none,
    toFlatNode ⟨"com2", "community2"⟩ true 0 false none,
    toFlatNode ⟨"com3", "community3"⟩ false 0 false none ]

/-- The children arrays of the test fixture
(`mockTopCommunitiesWithChildrenArrays`): the first top community has two
subcommunities, the second has four collections, the third has nothing. -/
def mockTopComsWithChildren : List TopComChildren :=
  [ ⟨"com1", [⟨"sub1", "subcommunity1"⟩, ⟨"sub2", "subcommunity2"⟩], []⟩,
    ⟨"com2", [],
      [⟨"col1", "collection1"⟩, ⟨"col2", "collection2"⟩,
       ⟨"col3", "collection3"⟩, ⟨"col4", "collection4"⟩]⟩,
    ⟨"com3", [], []⟩ ]

/-- The pagination state the test fixture starts from: every page size is
2 and the top-level page is 1. -/
def mockState : CommunityListState :=
  { topPageSize := 2, topCurrentPage := 1, collectionPageSize := 2,
    subcommunityPageSize := 2 }

/-- The second top community of the fixture as an expanded flat node. -/
def mockExpandedCom2 : FlatNode :=
  FlatNode.mk "com2" "community2" true true 0 false none 1 1

/-- An expanded-nodes list containing only the second top community. -/
def mockExpanded : List FlatNode :=
  [mockExpandedCom2]

/-- The second top community of the fixture as an unexpanded flat node,
the second element of `mockTopFlatnodesUnexpanded`. -/
def mockTopNode2 : FlatNode :=
  toFlatNode ⟨"com2", "community2"⟩ true 0 false none

/-- The children arrays of the second top community of the fixture,
the second element of `mockTopComsWithChildren`. -/
def mockTopCom2 : TopComChildren :=
  ⟨"com2", [],
    [⟨"col1", "collection1"⟩, ⟨"col2", "collection2"⟩,
     ⟨"col3", "collection3"⟩, ⟨"col4", "collection4"⟩]⟩

/-- The flat node built for the first collection of the second top
community when that community is expanded. -/
def mockCollNode1 : FlatNode :=
  toFlatNode ⟨"col1", "collection1"⟩ false (mockTopNode2.level + 1) false
    (some mockTopNode2)

end CommunityList

namespace ObjectCache

/-- Modelled from the spec: the cached REST resource of an object cache
entry; only its self link matters to the cache lookups. -/
structure CachedObject where
  self : String
  deriving DecidableEq

/-- Modelled from the spec: one object cache entry, as dispatched by
`AddToObjectCacheAction(objectToCache, timeAdded, msToLive, selfLink)` —
the cached object, the time it was added, and its time to live. Times are
millisecond values; the test file uses a negative `msToLive` to force
staleness, so both time fields are integers. -/
structure ObjectCacheEntry where
  data : CachedObject
  timeAdded : Int
  msToLive : Int
  deriving DecidableEq

/-- Modelled from the spec: "TTL (time-to-live): duration after which a
cached response is considered stale and must be re-fetched." A missing
entry is invalid; a present entry is invalid exactly when the current time
is past `timeAdded + msToLive`. -/
def isValid (now : Int) (entry : Option ObjectCacheEntry) : Bool :=
  match entry with
  | none => false
  | some e =>
    let timeOutdated := e.timeAdded + e.msToLive
    let isOutDated : Bool := decide (now > timeOutdated)
    !isOutDated

/-- Modelled from the spec: `ObjectCacheService.getBySelfLink(selfLink)`
(absent from the sources, specified by its test file) selects the cache
entry stored under the self link and filters out invalid entries, so a
stale or missing entry emits nothing. The store state is embedded as a
lookup function and the returned observable as the list it emits. -/
def getBySelfLink (state : String → Option ObjectCacheEntry) (now : Int)
    (selfLink : String) : List CachedObject :=
  (([state selfLink].filter (fun entry => isValid now entry)).filterMap
    (fun entry => Option.map ObjectCacheEntry.data entry))

/-- Modelled from the spec: `ObjectCacheService.hasBySelfLink(selfLink)`
(absent from the sources, specified by its test file) returns whether the
entry currently stored under the self link is valid. -/
def hasBySelfLink (state : String → Option ObjectCacheEntry) (now : Int)
    (selfLink : String) : Bool :=
  isValid now (state selfLink)

/-- The cached object of the test fixture. -/
def cachedObject : CachedObject :=
  ⟨"https://rest.api/endpoint/1"⟩

/-- A cache entry that is still within its time to live at time 1000. -/
def validEntry : ObjectCacheEntry :=
  ⟨cachedObject, 1000, 900000⟩

/-- A cache entry whose time to live is already exceeded at time 1000
(the test fixture's `invalidCacheEntry`, with `msToLive` equal to -1). -/
def staleEntry : ObjectCacheEntry :=
  ⟨cachedObject, 1000, -1⟩

/-- A store state holding the valid entry under its self link. -/
def validCacheState : String → Option ObjectCacheEntry :=
  fun s => if s == "https://rest.api/endpoint/1" then some validEntry else none

/-- A store state holding the stale entry under its self link. -/
def staleCacheState : String → Option ObjectCacheEntry :=
  fun s => if s == "https://rest.api/endpoint/1" then some staleEntry else none

end ObjectCache

namespace DataServiceHref

/-- Sort options of a find-all request: a sort field and a direction. -/
structure SortOptions where
  field : String
  direction : String

/-- The find-all options relevant to `getFindAllHref`: current page,
elements per page, sort options and a starts-with filter, each optional.
The `scopeID` option is omitted: with it the abstract `DataService` under
test only throws. -/
structure FindAllOptions where
  currentPage : Option Int
  elementsPerPage : Option Int
  sort : Option SortOptions
  startsWith : Option String

/-- Embedding of `args.join('&')`: the argument strings separated by
ampersands. -/
def joinArgs : List String → String
  | [] => ""
  | [a] => a
  | a :: b :: rest => a ++ "&" ++ joinArgs (b :: rest)

/-- Modelled from the spec: `DataService.getFindAllHref` (absent from the
sources, specified by its test file) collects one query argument per
provided option — `page` zero-indexed from `currentPage`, `size`, `sort`
as field comma direction, `startsWith` — in that fixed order, and appends
them to the endpoint after a question mark, joined by ampersands; with no
arguments the endpoint is returned unchanged. -/
def getFindAllHref (endpoint : String) (options : FindAllOptions) : String :=
  let args : List String :=
    (match options.currentPage with
      | some p => ["page=" ++ toString (p - 1)]
      | none => []) ++
    (match options.elementsPerPage with
      | some n => ["size=" ++ toString n]
      | none => []) ++
    (match options.sort with
      | some s => ["sort=" ++ s.field ++ "," ++ s.direction]
      | none => []) ++
    (match options.startsWith with
      | some sw => ["startsWith=" ++ sw]
      | none => [])
  if args.isEmpty then endpoint else endpoint ++ ("?" ++ joinArgs args)

end DataServiceHref

namespace ResearcherProfile

/-- One metadata value of an item; only the authority matters to
`findByRelatedItem`. -/
structure MetadataValue where
  value : String
  authority : Option String
  deriving DecidableEq

/-- An item, embedded as its metadata map: a list of key and value pairs. -/
structure Item where
  metadata : List (String × MetadataValue)
  deriving DecidableEq

/-- Embedding of `item.firstMetadata(key)`: the first metadata value
stored under the key, if any. -/
def Item.firstMetadata (item : Item) (key : String) : Option MetadataValue :=
  (item.metadata.find? (fun kv => kv.1 == key)).map Prod.snd

/-- Modelled from the spec: `isEmpty` of `empty.util` on an optional
string — true when the value is missing or is the empty string. -/
def isEmptyOptStr : Option String → Bool
  | none => true
  | some s => s.isEmpty

/-- Outcome of `findByRelatedItem`: either the failed RemoteData produced
by `createFailedRemoteDataObject$`, or a delegation to `findById` with the
given uuid. -/
inductive ProfileLookup where
  | failed
  | findById (uuid : String)
  deriving DecidableEq

/-- Embedding of `ResearcherProfileService.findByRelatedItem(item)`: read
the authority of the first `dspace.object.owner` metadata value; when it
is empty or missing return a failed RemoteData without any lookup,
otherwise delegate to `findById` with it. -/
def findByRelatedItem (item : Item) : ProfileLookup :=
  let profileId := (item.firstMetadata "dspace.object.owner").bind
    MetadataValue.authority
  if isEmptyOptStr profileId then ProfileLookup.failed
  else
    match profileId with
    | some pid => ProfileLookup.findById pid
    | none => ProfileLookup.failed

/-- An item owned by the profile with uuid `uuid-1`. -/
def mockOwnedItem : Item :=
  ⟨[("dspace.object.owner", ⟨"The Owner", some "uuid-1"⟩)]⟩

/-- Modelled from the spec: the completion state of a `RemoteData` as the
core data layer tracks it (the `RemoteData` class is absent from the
sources). -/
inductive RDState where
  | requestPending
  | responsePending
  | success
  | error
  deriving DecidableEq

/-- Modelled from the spec: a `RemoteData` response, reduced to the state
the delete pipeline inspects. -/
structure RemoteData where
  state : RDState
  deriving DecidableEq

/-- Whether the response has completed: it succeeded or failed. -/
def RemoteData.hasCompleted (rd : RemoteData) : Bool :=
  match rd.state with
  | RDState.success => true
  | RDState.error => true
  | _ => false

/-- Whether the response is a success. -/
def RemoteData.isSuccess (rd : RemoteData) : Bool :=
  match rd.state with
  | RDState.success => true
  | _ => false

/-- Embedding of `ResearcherProfileService.delete(researcherProfile)`: the
delete request's RemoteData emissions are piped through
`getFirstCompletedRemoteData` — the first emission that has completed —
and mapped to that emission's `isSuccess` flag. Observables are embedded
as the lists of values they emit. -/
def delete (deleteRD : List RemoteData) : List Bool :=
  match deleteRD.find? (fun rd => rd.hasCompleted) with
  | none => []
  | some rd => [rd.isSuccess]

/-- A delete response stream: one pending emission, then a success. -/
def mockDeleteStream : List RemoteData :=
  [⟨RDState.responsePending⟩, ⟨RDState.success⟩]

end ResearcherProfile

namespace CommunityList

/-- Replacing an accumulator-passing fold that appends one top node and its
children block per step by the corresponding flat map. -/
theorem foldl_append_cons_eq (f : FlatNode → List FlatNode) (l acc : List FlatNode) :
    l.foldl (fun a t => a ++ t :: f t) acc = acc ++ l.flatMap (fun t => t :: f t) := by
  induction l generalizing acc with
  | nil => simp
  | cons t l ih => simp [ih]

/-- Taking up to the clamped end page index is taking up to the raw one. -/
theorem take_clamped (l : List FlatNode) (k : Nat) :
    l.take (if k ≥ l.length then l.length else k) = l.take k := by
  by_cases h : l.length ≤ k
  · simp [ge_iff_le, h, List.take_of_length_le h]
  · simp [ge_iff_le, h]

/-- With no expanded nodes, `loadCommunities` returns the current top page
followed by a show-more node exactly when the page limit cut communities
off. -/
theorem loadCommunities_empty_eq (st : CommunityListState) (tops : List FlatNode)
    (topComs : List TopComChildren) :
    loadCommunities st tops topComs [] =
      tops.take (st.topCurrentPage * st.topPageSize) ++
        (if st.topCurrentPage * st.topPageSize < tops.length then
          [showMoreFlatNode "community" 0 none] else []) := by
  unfold loadCommunities
  by_cases h : tops.length ≤ st.topCurrentPage * st.topPageSize
  · have h2 : ¬ st.topCurrentPage * st.topPageSize < tops.length := not_lt.mpr h
    simp [ge_iff_le, h, h2, List.take_of_length_le h]
  · have h2 : st.topCurrentPage * st.topPageSize < tops.length := not_le.mp h
    simp [ge_iff_le, h, h2]

/-- With expanded nodes, `loadCommunities` flat-maps each top node of the
current page to itself followed by its children block, and ends with a
show-more node exactly when the page limit cut top communities off. -/
theorem loadCommunities_expanded_eq (st : CommunityListState) (tops : List FlatNode)
    (topComs : List TopComChildren) (exp : List FlatNode) (h : exp ≠ []) :
    loadCommunities st tops topComs exp =
      (tops.take (st.topCurrentPage * st.topPageSize)).flatMap
        (fun t => t :: expandedChildren st topComs exp t) ++
      (if st.topCurrentPage * st.topPageSize < tops.length then
        [showMoreFlatNode "community" 0 none] else []) := by
  have hne : exp.isEmpty = false := by
    cases exp with
    | nil => exact absurd rfl h
    | cons a l => rfl
  unfold loadCommunities
  rw [hne]
  by_cases hk : tops.length ≤ st.topCurrentPage * st.topPageSize
  · have h2 : ¬ st.topCurrentPage * st.topPageSize < tops.length := not_lt.mpr hk
    simp only [ge_iff_le, hk, if_true, Bool.false_eq_true, if_false, h2,
      decide_eq_true_eq, foldl_append_cons_eq, List.nil_append, Bool.not_eq_true]
    rw [List.take_length, List.take_of_length_le hk]
    simp
  · have h2 : st.topCurrentPage * st.topPageSize < tops.length := not_le.mp hk
    simp only [ge_iff_le, hk, if_false, h2, if_true, decide_eq_true_eq,
      foldl_append_cons_eq, List.nil_append, Bool.not_eq_true]
    simp [hk]

example :
    (loadCommunities mockState mockTopFlatnodesUnexpanded
      mockTopComsWithChildren []).length = 3 := by rfl

example :
    loadCommunities mockState mockTopFlatnodesUnexpanded
      mockTopComsWithChildren [] =
      mockTopFlatnodesUnexpanded.take 2 ++ [showMoreFlatNode "community" 0 none] := by rfl

example :
    loadCommunities mockState mockTopFlatnodesUnexpanded
      mockTopComsWithChildren mockExpanded =
      [ mockTopFlatnodesUnexpanded.get ⟨0, by simp [mockTopFlatnodesUnexpanded]⟩,
        mockTopNode2,
        mockCollNode1,
        toFlatNode ⟨"col2", "collection2"⟩ false 1 false (some mockTopNode2),
        showMoreFlatNode "collection" 1 (some mockExpandedCom2),
        showMoreFlatNode "community" 0 none ] := by rfl

/-- Claim C3: with no expanded nodes, `loadCommunities` returns exactly the
first `topCurrentPage * topPageSize` top-community flat nodes — all of them
when fewer exist, since `take` is clamped to the list length — and appends
a single show-more node at the end if and only if some top communities were
cut off by the page limit. -/
theorem loadCommunities_top_page (st : CommunityListState) (tops : List FlatNode)
    (topComs : List TopComChildren) :
    loadCommunities st tops topComs [] =
      tops.take (st.topCurrentPage * st.topPageSize) ++
        (if st.topCurrentPage * st.topPageSize < tops.length then
          [showMoreFlatNode "community" 0 none] else []) ∧
    (tops.take (st.topCurrentPage * st.topPageSize)).length =
      min (st.topCurrentPage * st.topPageSize) tops.length :=
  ⟨loadCommunities_empty_eq st tops topComs, List.length_take _ _⟩

/-- Claim C6: with expanded nodes, `loadCommunities` lists the top
communities of the current page in their original order, each immediately
followed by its children block (page-limited subcommunities, then
page-limited collections), and puts the top-level show-more node, when
present, at the very end of the list. -/
theorem loadCommunities_expanded_order (st : CommunityListState)
    (tops : List FlatNode) (topComs : List TopComChildren)
    (exp : List FlatNode) (h : exp ≠ []) :
    loadCommunities st tops topComs exp =
      (tops.take (st.topCurrentPage * st.topPageSize)).flatMap
        (fun t => t :: expandedChildren st topComs exp t) ++
      (if st.topCurrentPage * st.topPageSize < tops.length then
        [showMoreFlatNode "community" 0 none] else []) :=
  loadCommunities_expanded_eq st tops topComs exp h

/-- Claim C6, witnessed on the test fixture with its second top community
expanded. -/
theorem loadCommunities_expanded_order_witness :
    mockExpanded ≠ [] ∧
    loadCommunities mockState mockTopFlatnodesUnexpanded mockTopComsWithChildren
        mockExpanded =
      (mockTopFlatnodesUnexpanded.take (mockState.topCurrentPage * mockState.topPageSize)).flatMap
        (fun t => t :: expandedChildren mockState mockTopComsWithChildren mockExpanded t) ++
      (if mockState.topCurrentPage * mockState.topPageSize < mockTopFlatnodesUnexpanded.length then
        [showMoreFlatNode "community" 0 none] else []) :=
  ⟨by simp [mockExpanded],
   loadCommunities_expanded_order mockState mockTopFlatnodesUnexpanded
     mockTopComsWithChildren mockExpanded (by simp [mockExpanded])⟩

end CommunityList

namespace CommunityList

/-- Claim C7: `getNextPageTopCommunities` increments the top-level current
page by exactly one, so after one show-more activation from the initial
page the flattened tree (with no expanded nodes) holds the first
`min(2 * topPageSize, total)` top-community nodes and ends with a show-more
node exactly when top communities are still cut off — so the show-more node
disappears exactly when all top communities are shown. -/
theorem getNextPageTopCommunities_spec (st : CommunityListState)
    (tops : List FlatNode) (topComs : List TopComChildren)
    (h1 : st.topCurrentPage = 1)
    (h2 : showMoreFlatNode "community" 0 none ∉ tops) :
    (getNextPageTopCommunities st).topCurrentPage = 2 ∧
    loadCommunities (getNextPageTopCommunities st) tops topComs [] =
      tops.take (2 * st.topPageSize) ++
        (if 2 * st.topPageSize < tops.length then
          [showMoreFlatNode "community" 0 none] else []) ∧
    (tops.take (2 * st.topPageSize)).length =
      min (2 * st.topPageSize) tops.length ∧
    (showMoreFlatNode "community" 0 none ∈
        loadCommunities (getNextPageTopCommunities st) tops topComs [] ↔
      2 * st.topPageSize < tops.length) := by
  have hpage : (getNextPageTopCommunities st).topCurrentPage = 2 := by
    simp [getNextPageTopCommunities, h1]
  have hsize : (getNextPageTopCommunities st).topPageSize = st.topPageSize := rfl
  have heq : loadCommunities (getNextPageTopCommunities st) tops topComs [] =
      tops.take (2 * st.topPageSize) ++
        (if 2 * st.topPageSize < tops.length then
          [showMoreFlatNode "community" 0 none] else []) := by
    have hbase := loadCommunities_empty_eq (getNextPageTopCommunities st) tops topComs
    rwa [hpage, hsize] at hbase
  refine ⟨hpage, heq, List.length_take _ _, ?_⟩
  rw [heq]
  constructor
  · intro hmemb
    rcases List.mem_append.mp hmemb with hA | hB
    · exact absurd (List.mem_of_mem_take hA) h2
    · by_cases hcond : 2 * st.topPageSize < tops.length
      · exact hcond
      · simp [hcond] at hB
  · intro hcond
    apply List.mem_append_right
    simp [hcond]

/-- Claim C7, witnessed on the test fixture: three top communities, page
size two, starting from page one. -/
theorem getNextPageTopCommunities_spec_witness :
    mockState.topCurrentPage = 1 ∧
    showMoreFlatNode "community" 0 none ∉ mockTopFlatnodesUnexpanded ∧
    ((getNextPageTopCommunities mockState).topCurrentPage = 2 ∧
      loadCommunities (getNextPageTopCommunities mockState)
          mockTopFlatnodesUnexpanded mockTopComsWithChildren [] =
        mockTopFlatnodesUnexpanded.take (2 * mockState.topPageSize) ++
          (if 2 * mockState.topPageSize < mockTopFlatnodesUnexpanded.length then
            [showMoreFlatNode "community" 0 none] else []) ∧
      (mockTopFlatnodesUnexpanded.take (2 * mockState.topPageSize)).length =
        min (2 * mockState.topPageSize) mockTopFlatnodesUnexpanded.length ∧
      (showMoreFlatNode "community" 0 none ∈
          loadCommunities (getNextPageTopCommunities mockState)
            mockTopFlatnodesUnexpanded mockTopComsWithChildren [] ↔
        2 * mockState.topPageSize < mockTopFlatnodesUnexpanded.length)) :=
  ⟨rfl,
   by simp [mockTopFlatnodesUnexpanded, showMoreFlatNode, toFlatNode],
   getNextPageTopCommunities_spec mockState mockTopFlatnodesUnexpanded
     mockTopComsWithChildren rfl
     (by simp [mockTopFlatnodesUnexpanded, showMoreFlatNode, toFlatNode])⟩

end CommunityList

namespace CommunityList

/-- Children block of an expanded top node with matching children arrays,
written out: the flat nodes of the first
`subcommunityPageSize * currentCommunityPage` subcommunities, a community
show-more row exactly when more subcommunities exist, then the flat nodes
of the first `collectionPageSize * currentCollectionPage` collections, and
a collection show-more row exactly when more collections exist. -/
theorem expandedChildren_block (st : CommunityListState)
    (topComs : List TopComChildren) (exp : List FlatNode)
    (topNode p : FlatNode) (tc : TopComChildren)
    (hp : exp.find? (fun e => e.id == topNode.id) = some p)
    (htc : topComs.find? (fun c => c.id == topNode.id) = some tc) :
    expandedChildren st topComs exp topNode =
      (tc.subcommunities.take (st.subcommunityPageSize * p.currentCommunityPage)).map
          (fun subcom => toFlatNode subcom false (topNode.level + 1) false (some topNode)) ++
        (if st.subcommunityPageSize * p.currentCommunityPage < tc.subcommunities.length then
          [showMoreFlatNode "community" (topNode.level + 1) (some p)] else []) ++
        (tc.collections.take (st.collectionPageSize * p.currentCollectionPage)).map
          (fun coll => toFlatNode coll false (topNode.level + 1) false (some topNode)) ++
        (if st.collectionPageSize * p.currentCollectionPage < tc.collections.length then
          [showMoreFlatNode "collection" (topNode.level + 1) (some p)] else []) := by
  unfold expandedChildren
  rw [hp, htc]
  by_cases hs : tc.subcommunities = [] <;> by_cases hc : tc.collections = [] <;>
    simp [hs, hc, List.isEmpty_iff, ← List.map_take, List.append_assoc]

end CommunityList

namespace CommunityList

/-- Claim C4: for an expanded parent among the page-limited top nodes whose
children arrays are known, the flattened list contains, right after that
parent, exactly the flat nodes of the first
`subcommunityPageSize * currentCommunityPage` of its subcommunities
followed by a show-more row exactly when more subcommunities exist, then
the flat nodes of the first `collectionPageSize * currentCollectionPage`
of its collections followed by a show-more row exactly when more
collections exist. -/
theorem loadCommunities_expanded_parent (st : CommunityListState)
    (tops : List FlatNode) (topComs : List TopComChildren)
    (exp : List FlatNode) (topNode p : FlatNode) (tc : TopComChildren)
    (hmem : topNode ∈ tops.take (st.topCurrentPage * st.topPageSize))
    (hp : exp.find? (fun e => e.id == topNode.id) = some p)
    (htc : topComs.find? (fun c => c.id == topNode.id) = some tc) :
    ∃ l1 l2,
      loadCommunities st tops topComs exp =
        l1 ++
          (topNode ::
            ((tc.subcommunities.take (st.subcommunityPageSize * p.currentCommunityPage)).map
                (fun subcom => toFlatNode subcom false (topNode.level + 1) false (some topNode)) ++
              (if st.subcommunityPageSize * p.currentCommunityPage < tc.subcommunities.length then
                [showMoreFlatNode "community" (topNode.level + 1) (some p)] else []) ++
              (tc.collections.take (st.collectionPageSize * p.currentCollectionPage)).map
                (fun coll => toFlatNode coll false (topNode.level + 1) false (some topNode)) ++
              (if st.collectionPageSize * p.currentCollectionPage < tc.collections.length then
                [showMoreFlatNode "collection" (topNode.level + 1) (some p)] else []))) ++
          l2 := by
  have hexp : exp ≠ [] := by
    intro hh
    rw [hh] at hp
    simp at hp
  obtain ⟨s1, s2, hsplit⟩ := List.append_of_mem hmem
  rw [loadCommunities_expanded_eq st tops topComs exp hexp, hsplit]
  refine ⟨s1.flatMap (fun t => t :: expandedChildren st topComs exp t),
    s2.flatMap (fun t => t :: expandedChildren st topComs exp t) ++
      (if st.topCurrentPage * st.topPageSize < tops.length then
        [showMoreFlatNode "community" 0 none] else []), ?_⟩
  rw [List.flatMap_append, List.flatMap_cons,
    expandedChildren_block st topComs exp topNode p tc hp htc]
  simp [List.append_assoc]

/-- Claim C4, witnessed on the test fixture with its second top community
(which has four collections and no subcommunities) expanded: the block
after it is its first two collections and a collection show-more row. -/
theorem loadCommunities_expanded_parent_witness :
    mockTopNode2 ∈ mockTopFlatnodesUnexpanded.take
        (mockState.topCurrentPage * mockState.topPageSize) ∧
    mockExpanded.find? (fun e => e.id == mockTopNode2.id) = some mockExpandedCom2 ∧
    mockTopComsWithChildren.find? (fun c => c.id == mockTopNode2.id) = some mockTopCom2 ∧
    (∃ l1 l2,
      loadCommunities mockState mockTopFlatnodesUnexpanded mockTopComsWithChildren
          mockExpanded =
        l1 ++
          (mockTopNode2 ::
            ((mockTopCom2.subcommunities.take
                (mockState.subcommunityPageSize * mockExpandedCom2.currentCommunityPage)).map
                (fun subcom => toFlatNode subcom false (mockTopNode2.level + 1) false
                  (some mockTopNode2)) ++
              (if mockState.subcommunityPageSize * mockExpandedCom2.currentCommunityPage <
                  mockTopCom2.subcommunities.length then
                [showMoreFlatNode "community" (mockTopNode2.level + 1) (some mockExpandedCom2)]
              else []) ++
              (mockTopCom2.collections.take
                (mockState.collectionPageSize * mockExpandedCom2.currentCollectionPage)).map
                (fun coll => toFlatNode coll false (mockTopNode2.level + 1) false
                  (some mockTopNode2)) ++
              (if mockState.collectionPageSize * mockExpandedCom2.currentCollectionPage <
                  mockTopCom2.collections.length then
                [showMoreFlatNode "collection" (mockTopNode2.level + 1) (some mockExpandedCom2)]
              else []))) ++
          l2) :=
  ⟨List.Mem.tail _ (List.Mem.head _), rfl, rfl,
   loadCommunities_expanded_parent mockState mockTopFlatnodesUnexpanded
     mockTopComsWithChildren mockExpanded mockTopNode2 mockExpandedCom2 mockTopCom2
     (List.Mem.tail _ (List.Mem.head _)) rfl rfl⟩

end CommunityList

namespace CommunityList

/-- Claim C5: every child flat node produced for an expanded parent (every
non-show-more row of its children block, all built by `toFlatNode`) has
nesting level equal to the expanded top node's level plus one and carries a
parent reference to that top node — whose identifier matches a node of the
expanded list — so its level is always its parent's level plus one. -/
theorem expandedChildren_depth (st : CommunityListState)
    (topComs : List TopComChildren) (exp : List FlatNode)
    (topNode n : FlatNode)
    (hn : n ∈ expandedChildren st topComs exp topNode)
    (hsm : n.isShowMoreNode = false) :
    n.parent = some topNode ∧ n.level = topNode.level + 1 ∧
    (∃ e, e ∈ exp ∧ e.id = topNode.id) ∧
    ∀ q, n.parent = some q → n.level = q.level + 1 := by
  unfold expandedChildren at hn
  rcases hfind : exp.find? (fun e => e.id == topNode.id) with _ | p
  · rw [hfind] at hn
    simp at hn
  · rw [hfind] at hn
    rcases htc : topComs.find? (fun tc => tc.id == topNode.id) with _ | tc
    · rw [htc] at hn
      simp at hn
    · rw [htc] at hn
      simp only at hn
      have part : ∀ (children : List DSpaceObject) (kk : Nat) (smid : String),
          n ∈ (if (children.map (fun c =>
                  toFlatNode c false (topNode.level + 1) false (some topNode))).isEmpty then
                ([] : List FlatNode)
              else
                (children.map (fun c =>
                  toFlatNode c false (topNode.level + 1) false (some topNode))).take kk ++
                  (if (children.map (fun c =>
                      toFlatNode c false (topNode.level + 1) false (some topNode))).length > kk then
                    [showMoreFlatNode smid (topNode.level + 1) (some p)]
                  else [])) →
          n.parent = some topNode ∧ n.level = topNode.level + 1 := by
        intro children kk smid h
        split at h
        · simp at h
        · rcases List.mem_append.mp h with h1 | h2
          · rcases List.mem_map.mp (List.mem_of_mem_take h1) with ⟨c, _, hcn⟩
            rw [← hcn]
            exact ⟨rfl, rfl⟩
          · split at h2
            · have h3 : n = showMoreFlatNode smid (topNode.level + 1) (some p) := by
                simpa using h2
              rw [h3] at hsm
              simp [showMoreFlatNode, FlatNode.isShowMoreNode] at hsm
            · simp at h2
      have key : n.parent = some topNode ∧ n.level = topNode.level + 1 := by
        rcases List.mem_append.mp hn with h | h
        · exact part tc.subcommunities (st.subcommunityPageSize * p.currentCommunityPage)
            "community" h
        · exact part tc.collections (st.collectionPageSize * p.currentCollectionPage)
            "collection" h
      refine ⟨key.1, key.2, ?_, ?_⟩
      · refine ⟨p, List.mem_of_find?_eq_some hfind, ?_⟩
        have hpid := List.find?_some hfind
        simpa using hpid
      · intro q hq
        rw [key.1] at hq
        cases hq
        exact key.2

/-- Claim C5, witnessed on the test fixture: the flat node of the first
collection of the expanded second top community sits one level below that
top community and points back to it. -/
theorem expandedChildren_depth_witness :
    mockCollNode1 ∈ expandedChildren mockState mockTopComsWithChildren
        mockExpanded mockTopNode2 ∧
    mockCollNode1.isShowMoreNode = false ∧
    (mockCollNode1.parent = some mockTopNode2 ∧
      mockCollNode1.level = mockTopNode2.level + 1 ∧
      (∃ e, e ∈ mockExpanded ∧ e.id = mockTopNode2.id) ∧
      ∀ q, mockCollNode1.parent = some q → mockCollNode1.level = q.level + 1) :=
  ⟨List.Mem.head _, rfl,
   expandedChildren_depth mockState mockTopComsWithChildren mockExpanded
     mockTopNode2 mockCollNode1 (List.Mem.head _) rfl⟩

end CommunityList

namespace ObjectCache

/-- Claim C1: for a cache entry whose time-to-live has been exceeded — the
current time is past `timeAdded + msToLive` — `getBySelfLink` emits no
value and `hasBySelfLink` returns false: a stale cached response is never
returned. -/
theorem stale_entry_not_returned (state : String → Option ObjectCacheEntry)
    (now : Int) (selfLink : String) (e : ObjectCacheEntry)
    (h1 : state selfLink = some e)
    (h2 : e.timeAdded + e.msToLive < now) :
    getBySelfLink state now selfLink = [] ∧
    hasBySelfLink state now selfLink = false := by
  have hv : isValid now (state selfLink) = false := by
    rw [h1]
    simp [isValid, h2]
  constructor
  · simp [getBySelfLink, hv]
  · simp [hasBySelfLink, hv]

/-- Claim C1, witnessed on the test fixture's invalid entry: `msToLive` of
-1 makes the entry stale at the very time it was added. -/
theorem stale_entry_not_returned_witness :
    staleCacheState "https://rest.api/endpoint/1" = some staleEntry ∧
    staleEntry.timeAdded + staleEntry.msToLive < 1000 ∧
    (getBySelfLink staleCacheState 1000 "https://rest.api/endpoint/1" = [] ∧
      hasBySelfLink staleCacheState 1000 "https://rest.api/endpoint/1" = false) :=
  ⟨rfl, by decide,
   stale_entry_not_returned staleCacheState 1000 "https://rest.api/endpoint/1"
     staleEntry rfl (by decide)⟩

/-- Claim C2: a cache entry still within its time-to-live is emitted by
`getBySelfLink` — and it is the cached object whose self link equals the
requested one — and `hasBySelfLink` returns true; with no entry cached
under the self link, `hasBySelfLink` returns false. -/
theorem valid_entry_returned (state : String → Option ObjectCacheEntry)
    (now : Int) (selfLink : String) (e : ObjectCacheEntry)
    (h1 : state selfLink = some e)
    (h2 : ¬ e.timeAdded + e.msToLive < now)
    (h3 : e.data.self = selfLink) :
    getBySelfLink state now selfLink = [e.data] ∧
    (∀ o, o ∈ getBySelfLink state now selfLink → o.self = selfLink) ∧
    hasBySelfLink state now selfLink = true ∧
    ∀ (state2 : String → Option ObjectCacheEntry) (now2 : Int) (selfLink2 : String),
      state2 selfLink2 = none → hasBySelfLink state2 now2 selfLink2 = false := by
  have hv : isValid now (state selfLink) = true := by
    rw [h1]
    simp [isValid, h2]
  have hv2 : isValid now (some e) = true := by
    rw [← h1]
    exact hv
  have hget : getBySelfLink state now selfLink = [e.data] := by
    simp [getBySelfLink, h1, hv2]
  refine ⟨hget, ?_, by simp [hasBySelfLink, hv], ?_⟩
  · intro o ho
    rw [hget] at ho
    have : o = e.data := by simpa using ho
    rw [this, h3]
  · intro state2 now2 selfLink2 hnone
    simp [hasBySelfLink, hnone, isValid]

/-- Claim C2, witnessed on the test fixture's valid entry (time to live
900000 at the time it was added). -/
theorem valid_entry_returned_witness :
    validCacheState "https://rest.api/endpoint/1" = some validEntry ∧
    ¬ validEntry.timeAdded + validEntry.msToLive < 1000 ∧
    validEntry.data.self = "https://rest.api/endpoint/1" ∧
    (getBySelfLink validCacheState 1000 "https://rest.api/endpoint/1" =
        [validEntry.data] ∧
      (∀ o, o ∈ getBySelfLink validCacheState 1000 "https://rest.api/endpoint/1" →
        o.self = "https://rest.api/endpoint/1") ∧
      hasBySelfLink validCacheState 1000 "https://rest.api/endpoint/1" = true ∧
      ∀ (state2 : String → Option ObjectCacheEntry) (now2 : Int) (selfLink2 : String),
        state2 selfLink2 = none → hasBySelfLink state2 now2 selfLink2 = false) :=
  ⟨rfl, by decide, rfl,
   valid_entry_returned validCacheState 1000 "https://rest.api/endpoint/1"
     validEntry rfl (by decide) rfl⟩

end ObjectCache

namespace DataServiceHref

/-- Claim C8: `getFindAllHref` builds the request href with a zero-indexed
page parameter — `currentPage` n yields `page=` n minus one — and with all
four options provided the query parameters appear after a single question
mark in the fixed order page, size, sort (field comma direction),
startsWith, joined by ampersands; with no options the endpoint is returned
unchanged. -/
theorem getFindAllHref_spec :
    (∀ e, getFindAllHref e ⟨none, none, none, none⟩ = e) ∧
    (∀ e n, getFindAllHref e ⟨some n, none, none, none⟩ =
      e ++ "?page=" ++ toString (n - 1)) ∧
    (∀ e n m f d sw, getFindAllHref e ⟨some n, some m, some ⟨f, d⟩, some sw⟩ =
      e ++ "?page=" ++ toString (n - 1) ++ "&size=" ++ toString m ++
        "&sort=" ++ f ++ "," ++ d ++ "&startsWith=" ++ sw) := by
  refine ⟨fun e => rfl, fun e n => ?_, fun e n m f d sw => ?_⟩
  · apply String.ext
    simp [getFindAllHref, joinArgs, String.data_append]
  · apply String.ext
    simp [getFindAllHref, joinArgs, String.data_append]

end DataServiceHref

namespace ResearcherProfile

/-- Claim C9: `findByRelatedItem` returns a failed RemoteData, issuing no
`findById` lookup, exactly when the authority of the item's first
`dspace.object.owner` metadata value is missing or empty; otherwise it
delegates to `findById` with that authority as the uuid. -/
theorem findByRelatedItem_spec (item : Item) :
    (findByRelatedItem item = ProfileLookup.failed ↔
      ((item.firstMetadata "dspace.object.owner").bind MetadataValue.authority = none ∨
       (item.firstMetadata "dspace.object.owner").bind MetadataValue.authority = some "")) ∧
    ∀ pid,
      (item.firstMetadata "dspace.object.owner").bind MetadataValue.authority = some pid →
      pid ≠ "" → findByRelatedItem item = ProfileLookup.findById pid := by
  rcases hpid : (item.firstMetadata "dspace.object.owner").bind MetadataValue.authority
    with _ | pid
  · constructor
    · simp [findByRelatedItem, hpid, isEmptyOptStr]
    · intro pid h
      simp at h
  · by_cases hz : pid = ""
    · subst hz
      constructor
      · constructor
        · intro hmain
          exact Or.inr rfl
        · intro hmain
          have hemp : "".isEmpty = true := rfl
          simp [findByRelatedItem, hpid, isEmptyOptStr, hemp]
      · intro pid2 h hne
        injection h with h2
        exact absurd h2.symm hne
    · constructor
      · simp [findByRelatedItem, hpid, isEmptyOptStr, String.isEmpty_iff, hz]
      · intro pid2 h hne
        injection h with h2
        subst h2
        simp [findByRelatedItem, hpid, isEmptyOptStr, String.isEmpty_iff, hz]

/-- Claim C9, witnessed on an item owned by profile `uuid-1`. -/
theorem findByRelatedItem_spec_witness :
    (mockOwnedItem.firstMetadata "dspace.object.owner").bind MetadataValue.authority =
      some "uuid-1" ∧
    "uuid-1" ≠ "" ∧
    findByRelatedItem mockOwnedItem = ProfileLookup.findById "uuid-1" :=
  ⟨rfl, by decide,
   (findByRelatedItem_spec mockOwnedItem).2 "uuid-1" rfl (by decide)⟩

/-- Claim C10: `delete` emits exactly one boolean, equal to the `isSuccess`
flag of the first completed RemoteData response of the delete request —
true exactly when the deletion succeeded. -/
theorem delete_spec (stream : List RemoteData) (rd : RemoteData)
    (h : stream.find? (fun r => r.hasCompleted) = some rd) :
    ResearcherProfile.delete stream = [rd.isSuccess] ∧
    (ResearcherProfile.delete stream).length = 1 ∧
    (ResearcherProfile.delete stream = [true] ↔ rd.state = RDState.success) := by
  have hdel : ResearcherProfile.delete stream = [rd.isSuccess] := by
    unfold ResearcherProfile.delete
    rw [h]
  refine ⟨hdel, by rw [hdel]; rfl, ?_⟩
  rw [hdel]
  constructor
  · intro hh
    have hsucc : rd.isSuccess = true := by simpa using hh
    cases hstate : rd.state <;> simp [RemoteData.isSuccess, hstate] at hsucc ⊢
  · intro hh
    simp [RemoteData.isSuccess, hh]

/-- Claim C10, witnessed on a stream whose first completed response is a
success. -/
theorem delete_spec_witness :
    mockDeleteStream.find? (fun r => r.hasCompleted) =
      some ⟨RDState.success⟩ ∧
    (ResearcherProfile.delete mockDeleteStream =
        [(⟨RDState.success⟩ : RemoteData).isSuccess] ∧
      (ResearcherProfile.delete mockDeleteStream).length = 1 ∧
      (ResearcherProfile.delete mockDeleteStream = [true] ↔
        (⟨RDState.success⟩ : RemoteData).state = RDState.success)) :=
  ⟨rfl, delete_spec mockDeleteStream ⟨RDState.success⟩ rfl⟩

end ResearcherProfile
